import Mathlib

set_option maxHeartbeats 1000000

/-! Shallow embedding of the sentiment aggregation core of the
mcp-yfinance-server repository: the item scorer, the source adapters, the
aggregator, the minute-bucketed cache and the batch, trending and history
orchestration, translated from src/sentiment/sentimentAnalyzer.js,
src/sentiment/newsProvider.js, src/sentiment/socialProvider.js and
src/sentiment/cache.js.  JavaScript numbers are modelled as exact rationals,
awaited promises as explicit outcome values (Except for code that can throw),
and the external collaborators (the Gemini model, the sentiment npm package,
axios responses, the wall clock) as environment parameters.  A JavaScript
object field that may be absent is modelled by Option, except for the
fromCache flag, where the absent field is modelled by the value false. -/

/-- A normalized news item as produced by newsProvider.js: title, summary,
url, source, timestamp, and the optional precomputed per-ticker sentiment
score parsed from Alpha Vantage (sentiment is none when the provider gave no
usable precomputed value). -/
structure NewsArticle where
  title : String
  summary : String
  url : String
  source : String
  timestamp : String
  sentiment : Option ℚ
deriving DecidableEq

/-- A normalized Reddit post as produced by socialProvider.js (fields used
downstream; score is the upvote score, which may be negative). -/
structure RedditPost where
  title : String
  text : String
  score : ℤ
  numComments : ℤ
  subreddit : String
deriving DecidableEq

/-- Outcome of one call to the Gemini model on a given text: err models a
thrown network or timeout error; ok p models a returned response whose text
parseFloat-s to p (none models NaN, i.e. a non-numeric response). -/
inductive GeminiOutcome where
  | err : GeminiOutcome
  | ok : Option ℚ → GeminiOutcome
deriving DecidableEq

/-- Scoring environment of SentimentAnalyzer: hasModel is whether
GEMINI_API_KEY is configured (this.model is non-null); gemini is the outcome
of the Gemini call for a given text; vader is the comparative value returned
by the sentiment npm package for a given nonempty text; log10p10 x models
Math.log10(x + 10). -/
structure ScoreEnv where
  hasModel : Bool
  gemini : String → GeminiOutcome
  vader : String → ℚ
  log10p10 : ℤ → ℚ

/-- SentimentAnalyzer.analyzeWithVADER: 0 for empty text, otherwise the
comparative value of the sentiment package (returned unclamped). -/
def analyzeWithVADER (env : ScoreEnv) (text : String) : ℚ :=
  if text = "" then 0 else env.vader text

/-- SentimentAnalyzer.analyzeWithGemini: falls back to analyzeWithVADER when
the model is not configured, the call throws, the response is not a number,
or the parsed value lies outside the interval from -1 to 1. -/
def analyzeWithGemini (env : ScoreEnv) (text : String) : ℚ :=
  if env.hasModel then
    match env.gemini text with
    | .err => analyzeWithVADER env text
    | .ok none => analyzeWithVADER env text
    | .ok (some v) => if v < -1 ∨ 1 < v then analyzeWithVADER env text else v
  else analyzeWithVADER env text

/-- The text scored for one item: title and body joined by a space and
truncated to 500 characters (String.substring(0, 500)). -/
def itemText (title body : String) : String := (title ++ " " ++ body).take 500

/-- The per-item scorer as used by analyzeNewsSentiment and
analyzeSocialSentiment on already-truncated text: Gemini when the model is
configured and the text is longer than 50 characters, otherwise VADER. -/
def scoreText (env : ScoreEnv) (text : String) : ℚ :=
  if env.hasModel ∧ 50 < text.length then analyzeWithGemini env text
  else analyzeWithVADER env text

/-- Per-article score in analyzeNewsSentiment: the precomputed provider
sentiment when present, otherwise the text scorer on title plus summary. -/
def newsItemScore (env : ScoreEnv) (a : NewsArticle) : ℚ :=
  match a.sentiment with
  | some s => s
  | none => scoreText env (itemText a.title a.summary)

/-- One analyzed news item as pushed onto the analyzed array. -/
structure AnalyzedNews where
  title : String
  score : ℚ
  source : String
  url : String
  timestamp : String
deriving DecidableEq

/-- The comparator used for topHeadlines: descending absolute score. -/
def newsAbsDesc (a b : AnalyzedNews) : Prop := |b.score| ≤ |a.score|

instance : DecidableRel newsAbsDesc := fun a b => inferInstanceAs (Decidable (_ ≤ _))

instance : IsTotal AnalyzedNews newsAbsDesc := ⟨fun a b => le_total _ _⟩

instance : IsTrans AnalyzedNews newsAbsDesc := ⟨fun _ _ _ h1 h2 => le_trans h2 h1⟩

/-- Return shape of analyzeNewsSentiment. -/
structure NewsSummary where
  score : ℚ
  count : ℕ
  topHeadlines : List AnalyzedNews
deriving DecidableEq

/-- SentimentAnalyzer.analyzeNewsSentiment: score each article, average the
scores, and keep the five headlines of largest absolute score. -/
def analyzeNewsSentiment (env : ScoreEnv) (articles : List NewsArticle) : NewsSummary :=
  if articles.isEmpty then ⟨0, 0, []⟩
  else
    let analyzed := articles.map fun a =>
      AnalyzedNews.mk a.title (newsItemScore env a) a.source a.url a.timestamp
    ⟨(analyzed.map AnalyzedNews.score).sum / (analyzed.length : ℚ),
     analyzed.length,
     (List.insertionSort newsAbsDesc analyzed).take 5⟩

/-- Per-post weighted score in analyzeSocialSentiment: the text score times
Math.log10(post.score + 10). -/
def socialItemScore (env : ScoreEnv) (p : RedditPost) : ℚ :=
  scoreText env (itemText p.title p.text) * env.log10p10 p.score

/-- One analyzed social item as pushed onto the analyzed array. -/
structure SocialItem where
  text : String
  score : ℚ
  engagement : ℤ
  subreddit : String
deriving DecidableEq

/-- Return shape of analyzeSocialSentiment. -/
structure SocialSummary where
  score : ℚ
  count : ℕ
  breakdown : List SocialItem
deriving DecidableEq

/-- SentimentAnalyzer.analyzeSocialSentiment: score each post weighted by
engagement, average the weighted scores, keep the first ten as breakdown. -/
def analyzeSocialSentiment (env : ScoreEnv) (posts : List RedditPost) : SocialSummary :=
  if posts.isEmpty then ⟨0, 0, []⟩
  else
    let analyzed := posts.map fun p =>
      SocialItem.mk p.title (socialItemScore env p) (p.score + p.numComments) p.subreddit
    ⟨(analyzed.map SocialItem.score).sum / (analyzed.length : ℚ),
     analyzed.length,
     analyzed.take 10⟩

/-- SentimentAnalyzer.normalizeScore: clamp to the interval from -1 to 1. -/
def normalizeScore (s : ℚ) : ℚ := max (-1) (min 1 s)

/-- SentimentAnalyzer.getLabel with the fixed thresholds plus and minus 0.2. -/
def getLabel (s : ℚ) : String :=
  if 1/5 ≤ s then "positive" else if s ≤ -(1/5) then "negative" else "neutral"

/-- Rounding to two decimals, modelling parseFloat(x.toFixed(2)) on the
nonnegative values produced here (ECMA toFixed picks the larger candidate on
ties, i.e. rounds half up). -/
def round2 (q : ℚ) : ℚ := (⌊q * 100 + 1/2⌋ : ℚ) / 100

/-- The diversity factor of calculateConfidence. -/
def diversityScore (newsCount socialCount : ℕ) : ℚ :=
  if 0 < newsCount ∧ 0 < socialCount then 1 else 7/10

/-- SentimentAnalyzer.calculateConfidence. -/
def calculateConfidence (total newsCount socialCount : ℕ) : ℚ :=
  if total = 0 then 0
  else round2 (min ((total : ℚ) / 50) 1 * diversityScore newsCount socialCount)

/-- One entry of an Alpha Vantage ticker_sentiment array; score is the
parseFloat of ticker_sentiment_score (none models NaN). -/
structure AVTickerSentiment where
  ticker : String
  score : Option ℚ
  label : Option String
deriving DecidableEq

/-- One raw article of an Alpha Vantage feed. -/
structure AVRawArticle where
  title : Option String
  summary : Option String
  url : Option String
  source : Option String
  timePublished : Option String
  tickerSentiment : Option (List AVTickerSentiment)
deriving DecidableEq

/-- An Alpha Vantage response body: an optional rate-limit Note and an
optional feed array. -/
structure AVResponse where
  note : Option String
  feed : Option (List AVRawArticle)
deriving DecidableEq

/-- NewsProvider.parseAlphaVantageSentiment: find the entry for this ticker;
its score is parseFloat(ticker_sentiment_score) with NaN coerced to 0 by the
JavaScript or-with-0 idiom (the label is dropped by our model since only the
score field is read downstream). -/
def parseAlphaVantageSentiment (a : AVRawArticle) (ticker : String) : Option ℚ :=
  match a.tickerSentiment with
  | none => none
  | some l =>
    match l.find? (fun ts => ts.ticker == ticker) with
    | none => none
    | some ts => some (ts.score.getD 0)

/-- NewsProvider.fetchAlphaVantageNews given the axios outcome: a thrown
request error propagates, a Note throws the rate-limit error, a missing feed
yields the empty list, otherwise each feed article is mapped one-to-one to a
normalized article. -/
def fetchAlphaVantageNews (ticker : String) (resp : Except String AVResponse)
    (nowIso : String) : Except String (List NewsArticle) :=
  match resp with
  | .error e => .error e
  | .ok r =>
    if r.note.isSome then .error "Alpha Vantage API rate limit reached"
    else
      match r.feed with
      | none => .ok []
      | some feed => .ok (feed.map fun a =>
          NewsArticle.mk (a.title.getD "") (a.summary.getD "") (a.url.getD "")
            (a.source.getD "Alpha Vantage") (a.timePublished.getD nowIso)
            (parseAlphaVantageSentiment a ticker))

/-- Environment of NewsProvider.fetchNews: whether each API key is
configured, the Alpha Vantage response outcome for this call, and the mapped
NewsAPI article list (or thrown error) for a requested page size. -/
structure NewsEnv where
  hasAlphaVantageKey : Bool
  hasNewsApiKey : Bool
  avResponse : Except String AVResponse
  newsApi : ℕ → Except String (List NewsArticle)
  nowIso : String

/-- The first try block of NewsProvider.fetchNews: the Alpha Vantage
articles when the key is configured and the call succeeds, otherwise no
contribution (the error is caught and logged). -/
def newsFromAV (env : NewsEnv) (ticker : String) : List NewsArticle :=
  if env.hasAlphaVantageKey then
    match fetchAlphaVantageNews ticker env.avResponse env.nowIso with
    | .ok xs => xs
    | .error _ => []
  else []

/-- The second try block of NewsProvider.fetchNews: top up from NewsAPI when
the key is configured and the results are still under the limit; a caught
error leaves the results unchanged. -/
def newsTopUp (env : NewsEnv) (r1 : List NewsArticle) (limit : ℕ) : List NewsArticle :=
  if env.hasNewsApiKey ∧ r1.length < limit then
    match env.newsApi (limit - r1.length) with
    | .ok ys => r1 ++ ys
    | .error _ => r1
  else r1

/-- NewsProvider.fetchNews: try Alpha Vantage (errors caught and logged),
top up from NewsAPI (errors caught and logged), truncate to the limit.  The
function is total: a provider failure never fails the fetch. -/
def fetchNews (env : NewsEnv) (ticker : String) (limit : ℕ) : List NewsArticle :=
  (newsTopUp env (newsFromAV env ticker) limit).take limit

/-- Environment of SocialProvider: the outcome of getRedditToken (an error
models missing credentials or a failed token request, with the message the
code would throw), and the mapped post list (or thrown error) per subreddit
searched; the per-subreddit request size ceil(limit / subreddits.length) is
absorbed into this abstraction since the upstream controls the reply size. -/
structure SocialEnv where
  auth : Except String Unit
  subredditFetch : String → Except String (List RedditPost)

/-- The subreddit list hardcoded at every call site. -/
def defaultSubreddits : List String := ["wallstreetbets", "stocks", "investing"]

/-- One iteration of the subreddit loop in fetchRedditPosts: a failing
subreddit is logged and excluded, a succeeding one has its posts appended. -/
def poolStep (env : SocialEnv) (acc : List RedditPost) (sr : String) : List RedditPost :=
  match env.subredditFetch sr with
  | .ok ps => acc ++ ps
  | .error _ => acc

/-- SocialProvider.fetchRedditPosts: a token failure escapes the outer try
and is rethrown wrapped as a Reddit fetch error; otherwise the per-subreddit
results are pooled (per-subreddit errors excluded) and truncated. -/
def fetchRedditPosts (env : SocialEnv) (subreddits : List String) (limit : ℕ) :
    Except String (List RedditPost) :=
  match env.auth with
  | .error e => .error ("Reddit fetch error: " ++ e)
  | .ok _ => .ok ((subreddits.foldl (poolStep env) []).take limit)

/-- One source_breakdown group of the result object. -/
structure SourceStat where
  score : ℚ
  count : ℕ
deriving DecidableEq

/-- The TickerSentiment result object built by analyzeTicker.  fromCache
models the optional fromCache field with false for absent; error models the
error field of the batch placeholder with none for absent. -/
structure SentimentResult where
  ticker : String
  timestamp : String
  sentiment_score : ℚ
  sentiment_label : String
  confidence : ℚ
  sources_analyzed : ℕ
  news_breakdown : SourceStat
  social_breakdown : SourceStat
  top_headlines : List AnalyzedNews
  fromCache : Bool
  error : Option String
deriving DecidableEq

/-- A cache key: the JavaScript string sentiment:T:B determines and is
determined by the pair of the ticker T and the minute bucket B (split at the
last colon), so keys are modelled as such pairs. -/
abbrev CacheKey := String × ℕ

/-- A stored cache entry with its absolute expiry instant in ms, modelling
the node-cache per-key TTL. -/
structure CacheEntry where
  value : SentimentResult
  expiresAt : ℕ
deriving DecidableEq

/-- The cache contents; an assoc list where the first binding of a key wins,
so prepending models the overwrite-on-set of node-cache. -/
abbrev Cache := List (CacheKey × CacheEntry)

/-- First binding of a key. -/
def cacheFind : Cache → CacheKey → Option CacheEntry
  | [], _ => none
  | (k, e) :: rest, key => if k = key then some e else cacheFind rest key

/-- CacheManager.get at instant now: a stored entry is returned while it has
not expired (node-cache drops expired entries on read). -/
def cacheGet (c : Cache) (key : CacheKey) (now : ℕ) : Option SentimentResult :=
  match cacheFind c key with
  | some e => if now < e.expiresAt then some e.value else none
  | none => none

/-- CacheManager.set with a per-key TTL in seconds. -/
def cacheSet (c : Cache) (key : CacheKey) (v : SentimentResult) (ttlSeconds now : ℕ) : Cache :=
  (key, CacheEntry.mk v (now + ttlSeconds * 1000)) :: c

/-- The minute bucket Date.now() / 60000 | 0 (the value fits in 32 bits, so
the bitwise-or truncation is the floor). -/
def bucket (nowMs : ℕ) : ℕ := nowMs / 60000

/-- The cache key computed by analyzeTicker. -/
def cacheKeyOf (ticker : String) (nowMs : ℕ) : CacheKey := (ticker, bucket nowMs)

/-- Whole-call environment of one analyzeTicker invocation: the scorer
environment, the two provider environments, and the wall clock. -/
structure AnalyzeEnv where
  scorer : ScoreEnv
  news : NewsEnv
  social : SocialEnv
  now : ℕ
  nowIso : String

/-- The options object of analyzeTicker; a JavaScript-absent field is
modelled by the default or by none. -/
structure AnalyzeOptions where
  skipCache : Bool := false
  includeSocial : Bool := false
  newsLimit : Option ℕ := none
  socialLimit : Option ℕ := none
deriving DecidableEq

/-- The JavaScript idiom x or-else d for an optional numeric option: an
absent field and the falsy value 0 both yield the default. -/
def jsOr (x : Option ℕ) (d : ℕ) : ℕ :=
  match x with
  | some n => if n = 0 then d else n
  | none => d

/-- The social arm of the Promise.all in analyzeTicker: the Reddit fetch
when includeSocial, otherwise an already-resolved empty list. -/
def socialFetchOf (env : AnalyzeEnv) (opts : AnalyzeOptions) : Except String (List RedditPost) :=
  if opts.includeSocial then
    fetchRedditPosts env.social defaultSubreddits (jsOr opts.socialLimit 30)
  else .ok []

/-- The result object built by analyzeTicker after fetching and scoring. -/
def freshResult (env : AnalyzeEnv) (ticker : String) (opts : AnalyzeOptions)
    (posts : List RedditPost) : SentimentResult :=
  let newsResults := analyzeNewsSentiment env.scorer
    (fetchNews env.news ticker (jsOr opts.newsLimit 20))
  let socialResults := if opts.includeSocial then analyzeSocialSentiment env.scorer posts
    else SocialSummary.mk 0 0 []
  let total := newsResults.count + socialResults.count
  let combined : ℚ := if total = 0 then 0
    else (newsResults.score * (newsResults.count : ℚ)
          + socialResults.score * (socialResults.count : ℚ)) / (total : ℚ)
  { ticker := ticker.toUpper
    timestamp := env.nowIso
    sentiment_score := normalizeScore combined
    sentiment_label := getLabel (normalizeScore combined)
    confidence := calculateConfidence total newsResults.count socialResults.count
    sources_analyzed := total
    news_breakdown := SourceStat.mk (normalizeScore newsResults.score) newsResults.count
    social_breakdown := SourceStat.mk (normalizeScore socialResults.score) socialResults.count
    top_headlines := newsResults.topHeadlines
    fromCache := false
    error := none }

/-- The message of the error rethrown by analyzeTicker. -/
def analysisFailedMsg (ticker msg : String) : String :=
  "Sentiment analysis failed for " ++ ticker ++ ": " ++ msg

/-- The non-cached path of analyzeTicker: fetch both sources (the news fetch
is total; only the social fetch can throw, and its error is rethrown wrapped
by the catch), build the result, and cache it for 1800 seconds. -/
def analyzeFresh (env : AnalyzeEnv) (c : Cache) (ticker : String) (opts : AnalyzeOptions) :
    Except String SentimentResult × Cache :=
  match socialFetchOf env opts with
  | .error e => (.error (analysisFailedMsg ticker e), c)
  | .ok posts =>
    let r := freshResult env ticker opts posts
    (.ok r, cacheSet c (cacheKeyOf ticker env.now) r 1800 env.now)

/-- SentimentAnalyzer.analyzeTicker: on a live cached entry without
skipCache, return a fresh object spreading the stored fields plus
fromCache true and leave the cache untouched; otherwise run the fresh
analysis. -/
def analyzeTicker (env : AnalyzeEnv) (c : Cache) (ticker : String) (opts : AnalyzeOptions) :
    Except String SentimentResult × Cache :=
  match cacheGet c (cacheKeyOf ticker env.now) env.now with
  | some cached =>
    if opts.skipCache then analyzeFresh env c ticker opts
    else (.ok { cached with fromCache := true }, c)
  | none => analyzeFresh env c ticker opts

/-- The batch error placeholder object: ticker uppercased, the caught
message, score 0 and label error; the remaining fields are absent in the
JavaScript object and modelled by defaults. -/
def errorEntry (ticker msg : String) : SentimentResult :=
  { ticker := ticker.toUpper
    timestamp := ""
    sentiment_score := 0
    sentiment_label := "error"
    confidence := 0
    sources_analyzed := 0
    news_breakdown := SourceStat.mk 0 0
    social_breakdown := SourceStat.mk 0 0
    top_headlines := []
    fromCache := false
    error := some msg }

/-- One settled promise of analyzeBatch: the per-ticker catch converts a
rejection into the error placeholder.  The analyze argument abstracts one
analyzeTicker call per ticker under the concurrent schedule. -/
def batchEntry (analyze : String → Except String SentimentResult) (ticker : String) :
    SentimentResult :=
  match analyze ticker with
  | .ok r => r
  | .error e => errorEntry ticker e

/-- Assignment acc[k] = v on a JavaScript object modelled as an assoc list
in insertion order: an existing key keeps its position, a new key is
appended. -/
def assocSet (m : List (String × SentimentResult)) (k : String) (v : SentimentResult) :
    List (String × SentimentResult) :=
  if m.any (fun p => p.1 == k) then m.map (fun p => if p.1 == k then (k, v) else p)
  else m ++ [(k, v)]

/-- SentimentAnalyzer.analyzeBatch: settle every ticker (failures caught per
ticker) and reduce into an object keyed by each settled value's ticker
field. -/
def analyzeBatch (analyze : String → Except String SentimentResult) (tickers : List String) :
    List (String × SentimentResult) :=
  (tickers.map (batchEntry analyze)).foldl (fun acc r => assocSet acc r.ticker r) []

/-- The options object passed by getTrendingTickers: social forced on,
everything else absent. -/
def trendingOptions : AnalyzeOptions :=
  { skipCache := false, includeSocial := true, newsLimit := none, socialLimit := none }

/-- The trending sort order: descending absolute sentiment score. -/
def absDesc (a b : SentimentResult) : Prop := |b.sentiment_score| ≤ |a.sentiment_score|

instance : DecidableRel absDesc := fun a b => inferInstanceAs (Decidable (_ ≤ _))

instance : IsTotal SentimentResult absDesc := ⟨fun a b => le_total _ _⟩

instance : IsTrans SentimentResult absDesc := ⟨fun _ _ _ h1 h2 => le_trans h2 h1⟩

/-- SentimentAnalyzer.getTrendingTickers: run the batch with social forced
on, keep the non-error values whose absolute score reaches the threshold,
sort descending by absolute score. -/
def getTrendingTickers (analyze : AnalyzeOptions → String → Except String SentimentResult)
    (tickers : List String) (threshold : ℚ) : List SentimentResult :=
  let batch := analyzeBatch (analyze trendingOptions) tickers
  List.insertionSort absDesc
    ((batch.map Prod.snd).filter
      (fun r => r.error.isNone && decide (threshold ≤ |r.sentiment_score|)))

/-- One point of the history reply; date is the UTC day index now / 86400000,
which determines and is determined by the date part of toISOString. -/
structure HistoryPoint where
  date : ℕ
  score : ℚ
  label : String
deriving DecidableEq

/-- The reply shape of getHistoricalSentiment. -/
structure HistoryResult where
  ticker : String
  period : String
  data : List HistoryPoint
deriving DecidableEq

/-- UTC day index of an epoch instant in ms. -/
def dayIndex (ms : ℕ) : ℕ := ms / 86400000

/-- One loop iteration of getHistoricalSentiment: read the cache at the
minute bucket of now minus i days; an absent entry contributes nothing. -/
def historyProbe (c : Cache) (now : ℕ) (ticker : String) (i : ℕ) : Option HistoryPoint :=
  match cacheGet c (ticker, (now - i * 86400000) / 60000) now with
  | some v =>
    some (HistoryPoint.mk (dayIndex (now - i * 86400000)) v.sentiment_score v.sentiment_label)
  | none => none

/-- SentimentAnalyzer.getHistoricalSentiment: probe the last days calendar
days from today backwards and reverse into oldest-first order. -/
def getHistoricalSentiment (c : Cache) (now : ℕ) (ticker : String) (days : ℕ) : HistoryResult :=
  HistoryResult.mk ticker.toUpper (toString days ++ " days")
    (((List.range days).filterMap (historyProbe c now ticker)).reverse)

/-- Modelled from the spec: the history contract reads, for each calendar
day, the cache entry whose key corresponds to that day's last-known minute
bucket.  We model the last-known minute bucket of a day as the greatest
minute bucket falling in that day (bucket / 1440 is the day index of a
bucket) that holds a live entry for the ticker. -/
def lastKnownBucket (c : Cache) (ticker : String) (day : ℕ) (now : ℕ) : Option ℕ :=
  c.foldl (fun acc p =>
    if p.1.1 = ticker ∧ p.1.2 / 1440 = day ∧ now < p.2.expiresAt then
      match acc with
      | some b => if b < p.1.2 then some p.1.2 else some b
      | none => some p.1.2
    else acc) none

/-- Modelled from the spec: the history entry a day would contribute when
read at its last-known minute bucket. -/
def historySpecProbe (c : Cache) (now : ℕ) (ticker : String) (i : ℕ) : Option HistoryPoint :=
  match lastKnownBucket c ticker (dayIndex (now - i * 86400000)) now with
  | some b =>
    match cacheGet c (ticker, b) now with
    | some v =>
      some (HistoryPoint.mk (dayIndex (now - i * 86400000)) v.sentiment_score v.sentiment_label)
    | none => none
  | none => none

/-- Modelled from the spec: the history reader as the spec sentence states
it, reading each of the last days calendar days at that day's last-known
minute bucket. -/
def historySpec (c : Cache) (now : ℕ) (ticker : String) (days : ℕ) : HistoryResult :=
  HistoryResult.mk ticker.toUpper (toString days ++ " days")
    (((List.range days).filterMap (historySpecProbe c now ticker)).reverse)

/-- The range invariants of a result object: score within -1 and 1,
confidence within 0 and 1. -/
def ResultBounds (r : SentimentResult) : Prop :=
  -1 ≤ r.sentiment_score ∧ r.sentiment_score ≤ 1 ∧ 0 ≤ r.confidence ∧ r.confidence ≤ 1

instance : DecidablePred ResultBounds := fun _ => inferInstanceAs (Decidable (_ ∧ _))

/-- Well-formedness of one cache binding, as established by every write the
analyzer performs: the stored value satisfies the range invariants, stores
no fromCache field, carries the uppercased key ticker, and its expiry covers
the whole key bucket plus the TTL. -/
def EntryWF (p : CacheKey × CacheEntry) : Prop :=
  ResultBounds p.2.value ∧ p.2.value.fromCache = false ∧
    p.2.value.ticker = p.1.1.toUpper ∧ p.1.2 * 60000 + 1800000 ≤ p.2.expiresAt

instance : DecidablePred EntryWF := fun _ => inferInstanceAs (Decidable (_ ∧ _))

/-- Well-formedness of a cache: every binding is well-formed. -/
def CacheWF (c : Cache) : Prop := ∀ p ∈ c, EntryWF p

/-- A scorer environment with no configured model and an all-zero lexicon,
used to instantiate theorems on a concrete run. -/
def zeroScoreEnv : ScoreEnv :=
  { hasModel := false, gemini := fun _ => .err, vader := fun _ => 0, log10p10 := fun _ => 1 }

/-- A news environment with no API keys configured. -/
def emptyNewsEnv : NewsEnv :=
  { hasAlphaVantageKey := false, hasNewsApiKey := false, avResponse := .error "offline",
    newsApi := fun _ => .error "offline", nowIso := "1970-01-01T00:00:00.000Z" }

/-- A social environment whose token request succeeds and whose subreddit
searches return no posts. -/
def okSocialEnv : SocialEnv := { auth := .ok (), subredditFetch := fun _ => .ok [] }

/-- A concrete whole-call environment at epoch instant 0. -/
def envW : AnalyzeEnv :=
  { scorer := zeroScoreEnv, news := emptyNewsEnv, social := okSocialEnv,
    now := 0, nowIso := "1970-01-01T00:00:00.000Z" }

/-- The result analyzeTicker computes in envW on an empty cache: zero items,
neutral label, zero confidence. -/
def rW : SentimentResult :=
  { ticker := "AAPL", timestamp := "1970-01-01T00:00:00.000Z", sentiment_score := 0,
    sentiment_label := "neutral", confidence := 0, sources_analyzed := 0,
    news_breakdown := SourceStat.mk 0 0, social_breakdown := SourceStat.mk 0 0,
    top_headlines := [], fromCache := false, error := none }

/-- The cache produced by that first call: rW stored under bucket 0 with the
default TTL of 1800 seconds. -/
def cW : Cache := [(("AAPL", 0), CacheEntry.mk rW 1800000)]

/-- The same environment half a minute later, inside the same minute
bucket. -/
def envW2 : AnalyzeEnv := { envW with now := 30000 }

/-- The same environment 45 seconds in, still inside the same minute
bucket. -/
def envW3 : AnalyzeEnv := { envW with now := 45000 }

/-- Model of the word list of the sentiment npm package used as the fallback
scorer: in the AFINN-165 lexicon the word breathtaking carries valence 5
(the package caps single-word valences at 5, not at 1). -/
def afinnValence (w : String) : Option ℤ := if w = "breathtaking" then some 5 else none

/-- Model of the comparative value of the sentiment npm package: the summed
valence of the recognized tokens divided by the token count, which for a
text of n recognized words of valence 5 equals 5, far outside the interval
from -1 to 1. -/
def sentimentComparative (text : String) : ℚ :=
  let tokens := text.splitOn " "
  (((tokens.map (fun w => (afinnValence w).getD 0)).sum : ℤ) : ℚ) / (tokens.length : ℚ)

/-- A scorer environment whose Gemini call throws and whose fallback is the
modelled sentiment package. -/
def ceScoreEnv : ScoreEnv :=
  { hasModel := true, gemini := fun _ => .err, vader := sentimentComparative,
    log10p10 := fun _ => 1 }

/-- A 64-character text of five tokens of valence 5: long enough for the
Gemini path, whose failure falls back to the sentiment package. -/
def ceText : String := "breathtaking breathtaking breathtaking breathtaking breathtaking"

/-- A stored result with integer score used in the history fixture. -/
def histValCE : SentimentResult := { rW with sentiment_score := 1, sentiment_label := "positive" }

/-- A cache holding one live entry for AAPL at minute bucket 143760, which
is 20:00 UTC of day 99 and hence the last-known bucket of that day. -/
def histCacheCE : Cache := [(("AAPL", 143760), CacheEntry.mk histValCE 8683201000)]

/-- A query instant at 12:00 UTC of day 100, whose minute bucket is 144720;
the probe for one day earlier is bucket 143280, not 143760. -/
def nowCE : ℕ := 8683200000

/-- A social environment with no Reddit credentials configured: the token
getter throws the configuration error. -/
def ceSocialEnv : SocialEnv :=
  { auth := .error "Reddit API credentials not configured", subredditFetch := fun _ => .ok [] }

/-- A social environment with valid credentials but failing subreddit
requests. -/
def errSubSocialEnv : SocialEnv :=
  { auth := .ok (), subredditFetch := fun _ => .error "request timeout" }

/-- A raw Alpha Vantage feed article. -/
def dupRaw : AVRawArticle :=
  { title := some "T", summary := some "S", url := some "u", source := some "Src",
    timePublished := some "ts", tickerSentiment := none }

/-- The normalized article dupRaw maps to. -/
def dupArticle : NewsArticle :=
  { title := "T", summary := "S", url := "u", source := "Src", timestamp := "ts",
    sentiment := none }

/-- A news environment whose Alpha Vantage feed repeats the same article
twice, as a provider may. -/
def dupNewsEnv : NewsEnv :=
  { hasAlphaVantageKey := true, hasNewsApiKey := false,
    avResponse := .ok (AVResponse.mk none (some [dupRaw, dupRaw])),
    newsApi := fun _ => .error "off", nowIso := "ts" }

/-- The news group summary computed inside analyzeTicker. -/
def newsSummaryOf (env : AnalyzeEnv) (ticker : String) (opts : AnalyzeOptions) : NewsSummary :=
  analyzeNewsSentiment env.scorer (fetchNews env.news ticker (jsOr opts.newsLimit 20))

/-- The social group summary computed inside analyzeTicker: the zero summary
when social inclusion is off. -/
def socialSummaryOf (env : AnalyzeEnv) (opts : AnalyzeOptions) (posts : List RedditPost) :
    SocialSummary :=
  if opts.includeSocial then analyzeSocialSentiment env.scorer posts else SocialSummary.mk 0 0 []


theorem neg_one_le_normalizeScore (s : ℚ) : -1 ≤ normalizeScore s := le_max_left _ _

theorem normalizeScore_le_one (s : ℚ) : normalizeScore s ≤ 1 :=
  max_le (by norm_num) (min_le_left _ _)

theorem normalizeScore_zero : normalizeScore 0 = 0 := by
  unfold normalizeScore
  rw [min_eq_right (by norm_num), max_eq_right (by norm_num)]

theorem getLabel_zero : getLabel 0 = "neutral" := by
  unfold getLabel
  rw [if_neg (by norm_num), if_neg (by norm_num)]

theorem round2_le (q : ℚ) : round2 q ≤ q + 1/200 := by
  unfold round2
  have h := Int.floor_le (q * 100 + 1/2)
  linarith

theorem lt_round2 (q : ℚ) : q - 1/200 < round2 q := by
  unfold round2
  have h := Int.sub_one_lt_floor (q * 100 + 1/2)
  linarith

theorem round2_nonneg {q : ℚ} (h : 0 ≤ q) : 0 ≤ round2 q := by
  unfold round2
  have h2 : (0:ℤ) ≤ ⌊q * 100 + 1/2⌋ := Int.floor_nonneg.mpr (by linarith)
  have h3 : (0:ℚ) ≤ (⌊q * 100 + 1/2⌋ : ℚ) := by exact_mod_cast h2
  linarith

theorem round2_le_one {q : ℚ} (h : q ≤ 1) : round2 q ≤ 1 := by
  unfold round2
  have h2 : ⌊q * 100 + 1/2⌋ < 101 := Int.floor_lt.mpr (by push_cast; linarith)
  have h3 : (⌊q * 100 + 1/2⌋ : ℚ) ≤ 100 := by exact_mod_cast Int.lt_add_one_iff.mp h2
  linarith

theorem round2_mono {q q2 : ℚ} (h : q ≤ q2) : round2 q ≤ round2 q2 := by
  unfold round2
  have h2 : ⌊q * 100 + 1/2⌋ ≤ ⌊q2 * 100 + 1/2⌋ := Int.floor_le_floor (by linarith)
  have h3 : (⌊q * 100 + 1/2⌋ : ℚ) ≤ (⌊q2 * 100 + 1/2⌋ : ℚ) := by exact_mod_cast h2
  linarith

theorem round2_pos {q : ℚ} (h : 7/500 ≤ q) : 0 < round2 q := by
  unfold round2
  have h2 : (1:ℤ) ≤ ⌊q * 100 + 1/2⌋ := Int.le_floor.mpr (by push_cast; linarith)
  have h3 : (1:ℚ) ≤ (⌊q * 100 + 1/2⌋ : ℚ) := by exact_mod_cast h2
  linarith

theorem round2_zero : round2 0 = 0 := by
  unfold round2
  rw [show (0:ℚ) * 100 + 1/2 = 1/2 by norm_num,
    show ⌊(1:ℚ)/2⌋ = 0 from Int.floor_eq_zero_iff.mpr (by constructor <;> norm_num)]
  norm_num

theorem diversityScore_bounds (n s : ℕ) :
    7/10 ≤ diversityScore n s ∧ diversityScore n s ≤ 1 := by
  unfold diversityScore
  split <;> norm_num

theorem volumeScore_bounds (t : ℕ) :
    0 ≤ min ((t : ℚ) / 50) 1 ∧ min ((t : ℚ) / 50) 1 ≤ 1 :=
  ⟨le_min (by positivity) (by norm_num), min_le_right _ _⟩

theorem calculateConfidence_nonneg (t n s : ℕ) : 0 ≤ calculateConfidence t n s := by
  unfold calculateConfidence
  split
  · exact le_refl 0
  · exact round2_nonneg
      (mul_nonneg (volumeScore_bounds t).1 (by linarith [(diversityScore_bounds n s).1]))

theorem calculateConfidence_le_one (t n s : ℕ) : calculateConfidence t n s ≤ 1 := by
  unfold calculateConfidence
  split
  · norm_num
  · refine round2_le_one ?_
    have hv := volumeScore_bounds t
    have hd := diversityScore_bounds n s
    nlinarith [hv.1, hv.2, hd.1, hd.2]

theorem cacheFind_mem {c : Cache} {k : CacheKey} {e : CacheEntry}
    (h : cacheFind c k = some e) : (k, e) ∈ c := by
  induction c with
  | nil => exact absurd h (by simp [cacheFind])
  | cons p rest ih =>
    obtain ⟨k1, e1⟩ := p
    unfold cacheFind at h
    split at h
    · next heq =>
      injection h with h2
      subst heq h2
      exact List.mem_cons_self _ _
    · exact List.mem_cons_of_mem _ (ih h)


theorem cacheGet_some {c : Cache} {k : CacheKey} {now : ℕ} {v : SentimentResult}
    (h : cacheGet c k now = some v) :
    ∃ e, cacheFind c k = some e ∧ now < e.expiresAt ∧ e.value = v := by
  unfold cacheGet at h
  split at h
  · next e hf =>
    split at h
    · next ht =>
      injection h with h2
      exact ⟨e, hf, ht, h2⟩
    · exact absurd h (by simp)
  · exact absurd h (by simp)

theorem entryWF_of_hit {c : Cache} (hwf : CacheWF c) {k : CacheKey} {now : ℕ}
    {v : SentimentResult} (h : cacheGet c k now = some v) :
    ResultBounds v ∧ v.fromCache = false ∧ v.ticker = k.1.toUpper := by
  obtain ⟨e, hf, _, hv⟩ := cacheGet_some h
  have hw := hwf _ (cacheFind_mem hf)
  exact hv ▸ ⟨hw.1, hw.2.1, hw.2.2.1⟩

theorem cacheGet_same_bucket {c : Cache} (hwf : CacheWF c) {t : String} {b now1 now2 : ℕ}
    {v : SentimentResult} (h : cacheGet c (t, b) now1 = some v) (h2 : bucket now2 = b) :
    cacheGet c (t, b) now2 = some v := by
  obtain ⟨e, hf, _, hv⟩ := cacheGet_some h
  have hexp : b * 60000 + 1800000 ≤ e.expiresAt := (hwf _ (cacheFind_mem hf)).2.2.2
  have hb : now2 / 60000 = b := h2
  have hlt : now2 < e.expiresAt := by omega
  simp only [cacheGet, hf]
  rw [if_pos hlt, hv]

theorem cacheWF_set {c : Cache} (hwf : CacheWF c) {k : CacheKey} {v : SentimentResult}
    {ttl now : ℕ} (hb : ResultBounds v) (hfc : v.fromCache = false)
    (ht : v.ticker = k.1.toUpper) (he : k.2 * 60000 + 1800000 ≤ now + ttl * 1000) :
    CacheWF (cacheSet c k v ttl now) := by
  intro p hp
  rcases List.mem_cons.mp hp with hp | hp
  · subst hp
    exact ⟨hb, hfc, ht, he⟩
  · exact hwf _ hp

theorem freshResult_bounds (env : AnalyzeEnv) (ticker : String) (opts : AnalyzeOptions)
    (posts : List RedditPost) : ResultBounds (freshResult env ticker opts posts) := by
  unfold freshResult ResultBounds
  exact ⟨neg_one_le_normalizeScore _, normalizeScore_le_one _,
    calculateConfidence_nonneg _ _ _, calculateConfidence_le_one _ _ _⟩

theorem freshResult_fromCache (env : AnalyzeEnv) (ticker : String) (opts : AnalyzeOptions)
    (posts : List RedditPost) : (freshResult env ticker opts posts).fromCache = false := rfl

theorem freshResult_ticker (env : AnalyzeEnv) (ticker : String) (opts : AnalyzeOptions)
    (posts : List RedditPost) : (freshResult env ticker opts posts).ticker = ticker.toUpper := rfl

theorem analyzeFresh_ok_eq {env : AnalyzeEnv} {c : Cache} {ticker : String}
    {opts : AnalyzeOptions} {r : SentimentResult} {c2 : Cache}
    (h : analyzeFresh env c ticker opts = (.ok r, c2)) :
    ∃ posts, socialFetchOf env opts = .ok posts ∧ r = freshResult env ticker opts posts ∧
      c2 = cacheSet c (cacheKeyOf ticker env.now) r 1800 env.now := by
  unfold analyzeFresh at h
  split at h
  · next e heq =>
    injection h with h1 h2
    exact absurd h1 (by simp)
  · next posts heq =>
    injection h with h1 h2
    injection h1 with h1
    exact ⟨posts, heq, h1.symm, by rw [← h1, ← h2]⟩

theorem analyzeFresh_error_eq {env : AnalyzeEnv} {c : Cache} {ticker : String}
    {opts : AnalyzeOptions} {e : String} (h : socialFetchOf env opts = .error e) :
    analyzeFresh env c ticker opts = (.error (analysisFailedMsg ticker e), c) := by
  unfold analyzeFresh
  rw [h]

theorem analyzeFresh_ok_of_social {env : AnalyzeEnv} {c : Cache} {ticker : String}
    {opts : AnalyzeOptions} {posts : List RedditPost}
    (h : socialFetchOf env opts = .ok posts) :
    analyzeFresh env c ticker opts = (.ok (freshResult env ticker opts posts),
      cacheSet c (cacheKeyOf ticker env.now) (freshResult env ticker opts posts) 1800 env.now) := by
  unfold analyzeFresh
  rw [h]

theorem bounds_of_analyzeFresh_ok {env : AnalyzeEnv} {c : Cache} {ticker : String}
    {opts : AnalyzeOptions} {r : SentimentResult} {c2 : Cache}
    (h : analyzeFresh env c ticker opts = (.ok r, c2)) : ResultBounds r := by
  obtain ⟨posts, _, hr, _⟩ := analyzeFresh_ok_eq h
  exact hr ▸ freshResult_bounds _ _ _ _

theorem analyzeFresh_wf {env : AnalyzeEnv} {c : Cache} {ticker : String}
    {opts : AnalyzeOptions} (hwf : CacheWF c) :
    CacheWF (analyzeFresh env c ticker opts).2 := by
  unfold analyzeFresh
  split
  · exact hwf
  · refine cacheWF_set hwf (freshResult_bounds _ _ _ _) (freshResult_fromCache _ _ _ _)
      (freshResult_ticker _ _ _ _) ?_
    show bucket env.now * 60000 + 1800000 ≤ env.now + 1800 * 1000
    unfold bucket
    omega

theorem analyzeTicker_hit {env : AnalyzeEnv} {c : Cache} {ticker : String}
    {opts : AnalyzeOptions} {w : SentimentResult}
    (hg : cacheGet c (cacheKeyOf ticker env.now) env.now = some w)
    (hs : opts.skipCache = false) :
    analyzeTicker env c ticker opts = (.ok { w with fromCache := true }, c) := by
  unfold analyzeTicker
  rw [hg, hs]
  simp

theorem analyzeTicker_miss {env : AnalyzeEnv} {c : Cache} {ticker : String}
    {opts : AnalyzeOptions}
    (hg : cacheGet c (cacheKeyOf ticker env.now) env.now = none) :
    analyzeTicker env c ticker opts = analyzeFresh env c ticker opts := by
  unfold analyzeTicker
  rw [hg]

theorem analyzeTicker_skip {env : AnalyzeEnv} {c : Cache} {ticker : String}
    {opts : AnalyzeOptions} (hs : opts.skipCache = true) :
    analyzeTicker env c ticker opts = analyzeFresh env c ticker opts := by
  unfold analyzeTicker
  split
  · rw [hs]
    simp
  · rfl

theorem analyzeTicker_wf {env : AnalyzeEnv} {c : Cache} {ticker : String}
    {opts : AnalyzeOptions} (hwf : CacheWF c) :
    CacheWF (analyzeTicker env c ticker opts).2 := by
  unfold analyzeTicker
  split
  · split
    · exact analyzeFresh_wf hwf
    · exact hwf
  · exact analyzeFresh_wf hwf

theorem bounds_of_analyzeTicker_ok {env : AnalyzeEnv} {c : Cache} {ticker : String}
    {opts : AnalyzeOptions} (hwf : CacheWF c) {r : SentimentResult} {c2 : Cache}
    (h : analyzeTicker env c ticker opts = (.ok r, c2)) : ResultBounds r := by
  unfold analyzeTicker at h
  split at h
  · next cached hg =>
    split at h
    · exact bounds_of_analyzeFresh_ok h
    · have hb := (entryWF_of_hit hwf hg).1
      injection h with h1 h2
      injection h1 with h1
      rw [← h1]
      exact hb
  · exact bounds_of_analyzeFresh_ok h

theorem analyzeNewsSentiment_spec (env : ScoreEnv) (articles : List NewsArticle) :
    (analyzeNewsSentiment env articles).score
      = (articles.map (newsItemScore env)).sum / (articles.length : ℚ) ∧
    (analyzeNewsSentiment env articles).count = articles.length := by
  by_cases h : articles.isEmpty
  · rw [List.isEmpty_iff] at h
    subst h
    simp [analyzeNewsSentiment]
  · simp only [analyzeNewsSentiment, if_neg h, List.map_map, List.length_map]
    exact ⟨rfl, trivial⟩

theorem analyzeSocialSentiment_spec (env : ScoreEnv) (posts : List RedditPost) :
    (analyzeSocialSentiment env posts).score
      = (posts.map (socialItemScore env)).sum / (posts.length : ℚ) ∧
    (analyzeSocialSentiment env posts).count = posts.length := by
  by_cases h : posts.isEmpty
  · rw [List.isEmpty_iff] at h
    subst h
    simp [analyzeSocialSentiment]
  · simp only [analyzeSocialSentiment, if_neg h, List.map_map, List.length_map]
    exact ⟨rfl, trivial⟩

theorem cacheWF_nil : CacheWF [] := fun p hp => absurd hp (List.not_mem_nil p)

/-- C1: for every environment, well-formed cache, ticker and option
combination, a successful analyzeTicker call returns a result whose
sentiment_score lies in the interval from -1 to 1 and whose confidence lies
in the interval from 0 to 1 - for arbitrary, even out-of-range, per-item
scorer outputs, since the scorer environment is unconstrained - and every
cache it writes is well-formed again. -/
theorem C1_analyzeTicker_bounds (env : AnalyzeEnv) (c : Cache) (ticker : String)
    (opts : AnalyzeOptions) (hwf : CacheWF c) (r : SentimentResult) (c2 : Cache)
    (h : analyzeTicker env c ticker opts = (.ok r, c2)) :
    (-1 ≤ r.sentiment_score ∧ r.sentiment_score ≤ 1) ∧
    (0 ≤ r.confidence ∧ r.confidence ≤ 1) ∧ CacheWF c2 := by
  have hb := bounds_of_analyzeTicker_ok hwf h
  have hwf2 := @analyzeTicker_wf env c ticker opts hwf
  rw [h] at hwf2
  exact ⟨⟨hb.1, hb.2.1⟩, ⟨hb.2.2.1, hb.2.2.2⟩, hwf2⟩

/-- Witness for C1 on a concrete run from the empty cache. -/
theorem C1_analyzeTicker_bounds_witness :
    (-1 ≤ rW.sentiment_score ∧ rW.sentiment_score ≤ 1) ∧
    (0 ≤ rW.confidence ∧ rW.confidence ≤ 1) ∧ CacheWF cW :=
  C1_analyzeTicker_bounds envW [] "AAPL" {} cacheWF_nil rW cW (by with_unfolding_all rfl)

/-- C4: on a cache miss with a successful (or skipped) social fetch,
analyzeTicker does not fail; its sentiment_score is the clamped
count-weighted mean of the two per-group arithmetic means (0 when both
groups are empty), each group score being the arithmetic mean of its
per-item scores; and with both groups empty the result has score 0, label
neutral, confidence 0 and sources_analyzed 0. -/
theorem C4_combined_score_weighted_mean (env : AnalyzeEnv) (c : Cache) (ticker : String)
    (opts : AnalyzeOptions) (posts : List RedditPost)
    (hmiss : cacheGet c (cacheKeyOf ticker env.now) env.now = none)
    (hsoc : socialFetchOf env opts = .ok posts) :
    (analyzeTicker env c ticker opts).1 = .ok (freshResult env ticker opts posts) ∧
    (freshResult env ticker opts posts).sentiment_score
      = normalizeScore
          (if (newsSummaryOf env ticker opts).count + (socialSummaryOf env opts posts).count = 0
           then 0
           else ((newsSummaryOf env ticker opts).score * ((newsSummaryOf env ticker opts).count : ℚ)
              + (socialSummaryOf env opts posts).score
                * ((socialSummaryOf env opts posts).count : ℚ))
             / (((newsSummaryOf env ticker opts).count
                + (socialSummaryOf env opts posts).count : ℕ) : ℚ)) ∧
    (newsSummaryOf env ticker opts).score
      = ((fetchNews env.news ticker (jsOr opts.newsLimit 20)).map (newsItemScore env.scorer)).sum
        / ((fetchNews env.news ticker (jsOr opts.newsLimit 20)).length : ℚ) ∧
    (opts.includeSocial = true →
      (socialSummaryOf env opts posts).score
        = (posts.map (socialItemScore env.scorer)).sum / (posts.length : ℚ)) ∧
    ((newsSummaryOf env ticker opts).count = 0 ∧ (socialSummaryOf env opts posts).count = 0 →
      (freshResult env ticker opts posts).sentiment_score = 0 ∧
      (freshResult env ticker opts posts).sentiment_label = "neutral" ∧
      (freshResult env ticker opts posts).confidence = 0 ∧
      (freshResult env ticker opts posts).sources_analyzed = 0) := by
  refine ⟨?_, rfl, (analyzeNewsSentiment_spec env.scorer _).1, ?_, ?_⟩
  · rw [analyzeTicker_miss hmiss, analyzeFresh_ok_of_social hsoc]
  · intro hi
    unfold socialSummaryOf
    rw [if_pos hi]
    exact (analyzeSocialSentiment_spec env.scorer posts).1
  · rintro ⟨hn, hs⟩
    have ht : (newsSummaryOf env ticker opts).count + (socialSummaryOf env opts posts).count = 0 := by
      rw [hn, hs]
    have hscore : (freshResult env ticker opts posts).sentiment_score
        = normalizeScore
            (if (newsSummaryOf env ticker opts).count + (socialSummaryOf env opts posts).count = 0
             then 0
             else ((newsSummaryOf env ticker opts).score * ((newsSummaryOf env ticker opts).count : ℚ)
                + (socialSummaryOf env opts posts).score
                  * ((socialSummaryOf env opts posts).count : ℚ))
               / (((newsSummaryOf env ticker opts).count
                  + (socialSummaryOf env opts posts).count : ℕ) : ℚ)) := rfl
    have hlabel : (freshResult env ticker opts posts).sentiment_label
        = getLabel ((freshResult env ticker opts posts).sentiment_score) := rfl
    have hconf : (freshResult env ticker opts posts).confidence
        = calculateConfidence
            ((newsSummaryOf env ticker opts).count + (socialSummaryOf env opts posts).count)
            (newsSummaryOf env ticker opts).count (socialSummaryOf env opts posts).count := rfl
    have hsources : (freshResult env ticker opts posts).sources_analyzed
        = (newsSummaryOf env ticker opts).count + (socialSummaryOf env opts posts).count := rfl
    have hz : (freshResult env ticker opts posts).sentiment_score = 0 := by
      rw [hscore, if_pos ht, normalizeScore_zero]
    refine ⟨hz, ?_, ?_, ?_⟩
    · rw [hlabel, hz, getLabel_zero]
    · rw [hconf, ht]
      rfl
    · rw [hsources, ht]

/-- Witness for C4 on a concrete cache-miss run. -/
theorem C4_combined_score_weighted_mean_witness :
    (analyzeTicker envW [] "AAPL" {}).1 = .ok (freshResult envW "AAPL" {} []) :=
  (C4_combined_score_weighted_mean envW [] "AAPL" {} [] rfl rfl).1

theorem calculateConfidence_formula (t n s : ℕ) :
    calculateConfidence t n s = round2 (min ((t : ℚ) / 50) 1 * diversityScore n s) := by
  unfold calculateConfidence
  split
  · next h =>
    subst h
    rw [show ((0:ℕ):ℚ)/50 = 0 by norm_num, min_eq_left (by norm_num), zero_mul, round2_zero]
  · rfl

theorem calculateConfidence_eq_zero_iff (t n s : ℕ) :
    calculateConfidence t n s = 0 ↔ t = 0 := by
  constructor
  · intro h
    by_contra ht
    have h1 : (1:ℚ) ≤ (t:ℚ) := by exact_mod_cast Nat.one_le_iff_ne_zero.mpr ht
    have hv : 1/50 ≤ min ((t : ℚ) / 50) 1 := le_min (by linarith) (by norm_num)
    have hd := (diversityScore_bounds n s).1
    have hq : 7/500 ≤ min ((t : ℚ) / 50) 1 * diversityScore n s := by nlinarith
    have hpos := round2_pos hq
    rw [calculateConfidence_formula] at h
    linarith [h ▸ hpos]
  · intro h
    subst h
    rfl

theorem calculateConfidence_mono {n s n2 s2 : ℕ} (hle : n + s ≤ n2 + s2)
    (hdiv : (0 < n ∧ 0 < s) ↔ (0 < n2 ∧ 0 < s2)) :
    calculateConfidence (n + s) n s ≤ calculateConfidence (n2 + s2) n2 s2 := by
  rw [calculateConfidence_formula, calculateConfidence_formula]
  have hd : diversityScore n s = diversityScore n2 s2 := by
    unfold diversityScore
    exact if_congr hdiv rfl rfl
  rw [hd]
  refine round2_mono (mul_le_mul_of_nonneg_right ?_ (by linarith [(diversityScore_bounds n2 s2).1]))
  have hc : ((n + s : ℕ) : ℚ) ≤ ((n2 + s2 : ℕ) : ℚ) := by exact_mod_cast hle
  exact min_le_min (by linarith) le_rfl

theorem calculateConfidence_saturated {n s n2 s2 : ℕ} (h1 : 50 ≤ n + s) (h2 : 50 ≤ n2 + s2)
    (hdiv : (0 < n ∧ 0 < s) ↔ (0 < n2 ∧ 0 < s2)) :
    calculateConfidence (n + s) n s = calculateConfidence (n2 + s2) n2 s2 := by
  rw [calculateConfidence_formula, calculateConfidence_formula]
  have hd : diversityScore n s = diversityScore n2 s2 := by
    unfold diversityScore
    exact if_congr hdiv rfl rfl
  have hv1 : min (((n + s : ℕ) : ℚ) / 50) 1 = 1 := by
    refine min_eq_right ?_
    have : (50:ℚ) ≤ ((n + s : ℕ) : ℚ) := by exact_mod_cast h1
    linarith
  have hv2 : min (((n2 + s2 : ℕ) : ℚ) / 50) 1 = 1 := by
    refine min_eq_right ?_
    have : (50:ℚ) ≤ ((n2 + s2 : ℕ) : ℚ) := by exact_mod_cast h2
    linarith
  rw [hd, hv1, hv2]

theorem calculateConfidence_single_lt {m : ℕ} (hm : 0 < m) (n s : ℕ)
    (hone : ¬(0 < n ∧ 0 < s)) (hsum : n + s = m + m) :
    calculateConfidence (n + s) n s < calculateConfidence (m + m) m m := by
  rw [calculateConfidence_formula, calculateConfidence_formula, hsum]
  have hd1 : diversityScore n s = 7/10 := by
    unfold diversityScore
    exact if_neg hone
  have hd2 : diversityScore m m = 1 := by
    unfold diversityScore
    exact if_pos ⟨hm, hm⟩
  rw [hd1, hd2, mul_one]
  set v : ℚ := min (((m + m : ℕ) : ℚ) / 50) 1 with hv
  have hm1 : (1:ℚ) ≤ (m:ℚ) := by exact_mod_cast hm
  have hvlb : 1/30 < v := by
    refine lt_min ?_ (by norm_num)
    push_cast
    linarith
  calc round2 (v * (7/10)) ≤ v * (7/10) + 1/200 := round2_le _
    _ < v - 1/200 := by linarith
    _ < round2 v := lt_round2 v

/-- C6: confidence equals the two-decimal rounding of min(total divided by
50, 1) times the diversity factor (1 when both groups are populated, 0.7
otherwise); it is 0 exactly when the total is 0; with the diversity factor
held fixed it is non-decreasing in the total and constant once the total
reaches 50; and a single-source total is strictly below the confidence of
equal-sized contributions from both sources with the same total. -/
theorem C6_confidence_properties :
    (∀ t n s : ℕ, calculateConfidence t n s
        = round2 (min ((t : ℚ) / 50) 1 * diversityScore n s)) ∧
    (∀ t n s : ℕ, calculateConfidence t n s = 0 ↔ t = 0) ∧
    (∀ n s n2 s2 : ℕ, n + s ≤ n2 + s2 → ((0 < n ∧ 0 < s) ↔ (0 < n2 ∧ 0 < s2)) →
        calculateConfidence (n + s) n s ≤ calculateConfidence (n2 + s2) n2 s2) ∧
    (∀ n s n2 s2 : ℕ, 50 ≤ n + s → 50 ≤ n2 + s2 → ((0 < n ∧ 0 < s) ↔ (0 < n2 ∧ 0 < s2)) →
        calculateConfidence (n + s) n s = calculateConfidence (n2 + s2) n2 s2) ∧
    (∀ m : ℕ, 0 < m →
        calculateConfidence (m + m) (m + m) 0 < calculateConfidence (m + m) m m ∧
        calculateConfidence (m + m) 0 (m + m) < calculateConfidence (m + m) m m) := by
  refine ⟨calculateConfidence_formula, calculateConfidence_eq_zero_iff,
    fun n s n2 s2 h1 h2 => calculateConfidence_mono h1 h2,
    fun n s n2 s2 h1 h2 h3 => calculateConfidence_saturated h1 h2 h3,
    fun m hm => ⟨?_, ?_⟩⟩
  · exact calculateConfidence_single_lt hm (m + m) 0 (by simp) rfl
  · have h := calculateConfidence_single_lt hm 0 (m + m) (by simp) (by omega)
    rwa [Nat.zero_add] at h

/-- Witness for C6: one news-only item count against an equal split, plus
the zero characterization, at concrete inputs. -/
theorem C6_confidence_properties_witness :
    (calculateConfidence 0 0 0 = 0 ↔ (0:ℕ) = 0) ∧
    calculateConfidence (1 + 1) (1 + 1) 0 < calculateConfidence (1 + 1) 1 1 :=
  ⟨C6_confidence_properties.2.1 0 0 0,
   (C6_confidence_properties.2.2.2.2 1 (by norm_num)).1⟩

/-- C2, amended: the item scorer keeps the primary value only when it parses
to a number inside the interval from -1 to 1; in every other primary outcome
(thrown error, non-numeric response, out-of-range value, model missing,
short text) the item score equals exactly the fallback scorer applied to the
same text; a primary error never makes the pipeline fail (success of
analyzeTicker is independent of the scorer and news environments); and the
score lies inside the interval from -1 to 1 whenever the fallback scorer is
bounded - the code applies no clamp of its own to the fallback output. -/
theorem C2_item_scorer_fallback :
    (∀ (env : ScoreEnv) (text : String) (v : ℚ), env.gemini text = .ok (some v) →
        -1 ≤ v → v ≤ 1 → env.hasModel = true → 50 < text.length → scoreText env text = v) ∧
    (∀ (env : ScoreEnv) (text : String), env.gemini text = .err →
        scoreText env text = analyzeWithVADER env text) ∧
    (∀ (env : ScoreEnv) (text : String), env.gemini text = .ok none →
        scoreText env text = analyzeWithVADER env text) ∧
    (∀ (env : ScoreEnv) (text : String) (v : ℚ), env.gemini text = .ok (some v) →
        (v < -1 ∨ 1 < v) → scoreText env text = analyzeWithVADER env text) ∧
    (∀ (env : ScoreEnv) (text : String), (∀ t, -1 ≤ env.vader t ∧ env.vader t ≤ 1) →
        -1 ≤ scoreText env text ∧ scoreText env text ≤ 1) ∧
    (∀ (env env2 : AnalyzeEnv) (c : Cache) (ticker : String) (opts : AnalyzeOptions),
        env.social = env2.social → env.now = env2.now →
        ((∃ r, (analyzeTicker env c ticker opts).1 = .ok r) ↔
          (∃ r, (analyzeTicker env2 c ticker opts).1 = .ok r))) := by
  have hvd : ∀ (env : ScoreEnv) (text : String), (∀ t, -1 ≤ env.vader t ∧ env.vader t ≤ 1) →
      -1 ≤ analyzeWithVADER env text ∧ analyzeWithVADER env text ≤ 1 := by
    intro env text hb
    unfold analyzeWithVADER
    split
    · norm_num
    · exact hb text
  refine ⟨?_, ?_, ?_, ?_, ?_, ?_⟩
  · intro env text v hg h1 h2 hm hlen
    have hnot : ¬(v < -1 ∨ 1 < v) := by
      push_neg
      exact ⟨by linarith, by linarith⟩
    unfold scoreText
    rw [if_pos ⟨hm, hlen⟩]
    unfold analyzeWithGemini
    rw [if_pos hm, hg]
    show (if v < -1 ∨ 1 < v then analyzeWithVADER env text else v) = v
    rw [if_neg hnot]
  · intro env text hg
    unfold scoreText
    split
    · next hc =>
      unfold analyzeWithGemini
      rw [if_pos hc.1, hg]
    · rfl
  · intro env text hg
    unfold scoreText
    split
    · next hc =>
      unfold analyzeWithGemini
      rw [if_pos hc.1, hg]
    · rfl
  · intro env text v hg hout
    unfold scoreText
    split
    · next hc =>
      unfold analyzeWithGemini
      rw [if_pos hc.1, hg]
      show (if v < -1 ∨ 1 < v then analyzeWithVADER env text else v) = analyzeWithVADER env text
      rw [if_pos hout]
    · rfl
  · intro env text hb
    unfold scoreText
    split
    · next hc =>
      unfold analyzeWithGemini
      rw [if_pos hc.1]
      cases hg : env.gemini text with
      | err => exact hvd env text hb
      | ok p =>
        cases p with
        | none => exact hvd env text hb
        | some v =>
          show -1 ≤ (if v < -1 ∨ 1 < v then analyzeWithVADER env text else v) ∧
            (if v < -1 ∨ 1 < v then analyzeWithVADER env text else v) ≤ 1
          by_cases hout : v < -1 ∨ 1 < v
          · rw [if_pos hout]
            exact hvd env text hb
          · rw [if_neg hout]
            push_neg at hout
            exact ⟨by linarith [hout.1], by linarith [hout.2]⟩
    · exact hvd env text hb
  · intro env env2 c ticker opts hsoc hnow
    have hk : cacheKeyOf ticker env.now = cacheKeyOf ticker env2.now := by rw [hnow]
    have hsf : socialFetchOf env opts = socialFetchOf env2 opts := by
      unfold socialFetchOf
      rw [hsoc]
    unfold analyzeTicker
    rw [hk, hnow]
    cases hg : cacheGet c (cacheKeyOf ticker env2.now) env2.now with
    | some cached =>
      by_cases hs : opts.skipCache
      · simp only [if_pos hs]
        unfold analyzeFresh
        rw [hsf]
        cases hv : socialFetchOf env2 opts <;> simp
      · simp only [if_neg hs]
    | none =>
      unfold analyzeFresh
      rw [hsf]
      cases hv : socialFetchOf env2 opts <;> simp

/-- Witness for C2 on a concrete erroring primary call. -/
theorem C2_item_scorer_fallback_witness :
    scoreText ceScoreEnv ceText = analyzeWithVADER ceScoreEnv ceText :=
  C2_item_scorer_fallback.2.1 ceScoreEnv ceText rfl

/-- Counterexample to C2 as stated: with the Gemini call failing on a
64-character text of five words of AFINN valence 5, the item scorer returns
the unclamped comparative 5 of the fallback sentiment package, outside the
interval from -1 to 1. -/
theorem C2_item_scorer_fallback_counterexample :
    scoreText ceScoreEnv ceText = 5 ∧
    ¬(-1 ≤ scoreText ceScoreEnv ceText ∧ scoreText ceScoreEnv ceText ≤ 1) := by
  constructor
  · with_unfolding_all rfl
  · with_unfolding_all decide

/-- C3, amended: the news fetch is total (provider errors are caught per
provider), is bounded by the limit, and returns the empty list when no
provider contributes items; the social fetch pools per-subreddit results
and a failing subreddit contributes nothing, but a token/authentication
failure propagates out of the adapter as a thrown Reddit fetch error rather
than being converted to an empty contribution; and neither adapter
deduplicates, so upstream duplicates pass through. -/
theorem C3_adapters_fail_soft :
    (∀ (env : NewsEnv) (ticker : String) (limit : ℕ),
        (fetchNews env ticker limit).length ≤ limit) ∧
    (∀ (env : NewsEnv) (ticker : String) (limit : ℕ),
        (∀ xs, fetchAlphaVantageNews ticker env.avResponse env.nowIso = .ok xs → xs = []) →
        (∀ k ys, env.newsApi k = .ok ys → ys = []) →
        fetchNews env ticker limit = []) ∧
    (∀ (env : SocialEnv) (subs : List String) (limit : ℕ) (e : String),
        env.auth = .error e →
        fetchRedditPosts env subs limit = .error ("Reddit fetch error: " ++ e)) ∧
    (∀ (env : SocialEnv) (subs : List String) (limit : ℕ) (u : Unit),
        env.auth = .ok u →
        fetchRedditPosts env subs limit = .ok ((subs.foldl (poolStep env) []).take limit)) ∧
    (∀ (env : SocialEnv) (acc : List RedditPost) (sr : String) (e : String),
        env.subredditFetch sr = .error e → poolStep env acc sr = acc) := by
  refine ⟨?_, ?_, ?_, ?_, ?_⟩
  · intro env ticker limit
    unfold fetchNews
    exact List.length_take_le _ _
  · intro env ticker limit h1 h2
    have hr1 : newsFromAV env ticker = [] := by
      unfold newsFromAV
      split
      · split
        · next xs hx => exact h1 xs hx
        · rfl
      · rfl
    have hr2 : newsTopUp env [] limit = [] := by
      unfold newsTopUp
      split
      · split
        · next ys hy =>
            rw [h2 _ ys hy]
            rfl
        · rfl
      · rfl
    unfold fetchNews
    rw [hr1, hr2, List.take_nil]
  · intro env subs limit e ha
    unfold fetchRedditPosts
    rw [ha]
  · intro env subs limit u ha
    unfold fetchRedditPosts
    rw [ha]
  · intro env acc sr e hs
    unfold poolStep
    rw [hs]

/-- Witness for C3 on concrete environments: a succeeding token request and
an erroring subreddit. -/
theorem C3_adapters_fail_soft_witness :
    fetchRedditPosts okSocialEnv defaultSubreddits 30
      = .ok ((defaultSubreddits.foldl (poolStep okSocialEnv) []).take 30) ∧
    poolStep errSubSocialEnv [] "stocks" = [] :=
  ⟨C3_adapters_fail_soft.2.2.2.1 okSocialEnv defaultSubreddits 30 () rfl,
   C3_adapters_fail_soft.2.2.2.2 errSubSocialEnv [] "stocks" "request timeout" rfl⟩

/-- Counterexample to C3 as stated: with unconfigured Reddit credentials the
social adapter returns a thrown error, not an empty contribution, and an
Alpha Vantage feed repeating one article twice yields a duplicate pair from
a single fetch. -/
theorem C3_adapters_fail_soft_counterexample :
    fetchRedditPosts ceSocialEnv defaultSubreddits 30
      = .error "Reddit fetch error: Reddit API credentials not configured" ∧
    fetchNews dupNewsEnv "AAPL" 20 = [dupArticle, dupArticle] ∧
    ¬ (fetchNews dupNewsEnv "AAPL" 20).Nodup := by
  refine ⟨rfl, ?_, ?_⟩
  · with_unfolding_all rfl
  · with_unfolding_all decide

theorem assocSet_map_fst_mem {m : List (String × SentimentResult)} {k : String}
    (v : SentimentResult) (h : m.any (fun p => p.1 == k) = true) :
    (assocSet m k v).map Prod.fst = m.map Prod.fst := by
  unfold assocSet
  rw [if_pos h, List.map_map]
  refine List.map_congr_left ?_
  intro p hp
  simp only [Function.comp_apply]
  split
  · next hb => exact (eq_of_beq hb).symm
  · rfl

theorem assocSet_map_fst_new {m : List (String × SentimentResult)} {k : String}
    (v : SentimentResult) (h : ¬ m.any (fun p => p.1 == k) = true) :
    (assocSet m k v).map Prod.fst = m.map Prod.fst ++ [k] := by
  unfold assocSet
  rw [if_neg h, List.map_append]
  rfl

theorem mem_keys_assocSet {m : List (String × SentimentResult)} {k k2 : String}
    {v : SentimentResult} :
    k2 ∈ (assocSet m k v).map Prod.fst ↔ k2 ∈ m.map Prod.fst ∨ k2 = k := by
  by_cases h : m.any (fun p => p.1 == k) = true
  · rw [assocSet_map_fst_mem v h]
    constructor
    · exact Or.inl
    · rintro (hm | he)
      · exact hm
      · subst he
        obtain ⟨p, hp, hb⟩ := List.any_eq_true.mp h
        exact List.mem_map.mpr ⟨p, hp, eq_of_beq hb⟩
  · rw [assocSet_map_fst_new v h, List.mem_append, List.mem_singleton]

theorem nodup_keys_assocSet {m : List (String × SentimentResult)} {k : String}
    {v : SentimentResult} (hn : (m.map Prod.fst).Nodup) :
    ((assocSet m k v).map Prod.fst).Nodup := by
  by_cases h : m.any (fun p => p.1 == k) = true
  · rwa [assocSet_map_fst_mem v h]
  · rw [assocSet_map_fst_new v h]
    refine List.Nodup.append hn (List.nodup_singleton k) ?_
    intro a ha hb
    rw [List.mem_singleton] at hb
    subst hb
    obtain ⟨p, hp, hpk⟩ := List.mem_map.mp ha
    exact h (List.any_eq_true.mpr ⟨p, hp, beq_iff_eq.mpr hpk⟩)

theorem mem_assocSet {m : List (String × SentimentResult)} {k : String} {v : SentimentResult}
    {p : String × SentimentResult} (hp : p ∈ assocSet m k v) : p ∈ m ∨ p = (k, v) := by
  unfold assocSet at hp
  split at hp
  · obtain ⟨q, hq, hqe⟩ := List.mem_map.mp hp
    by_cases hb : (q.1 == k) = true
    · rw [if_pos hb] at hqe
      exact Or.inr hqe.symm
    · rw [if_neg hb] at hqe
      exact Or.inl (hqe ▸ hq)
  · rcases List.mem_append.mp hp with hm | hm
    · exact Or.inl hm
    · exact Or.inr (List.mem_singleton.mp hm)

theorem batchFold_nodup (rs : List SentimentResult) :
    ∀ (acc : List (String × SentimentResult)), (acc.map Prod.fst).Nodup →
      ((rs.foldl (fun a r => assocSet a r.ticker r) acc).map Prod.fst).Nodup := by
  induction rs with
  | nil => exact fun acc h => h
  | cons r rest ih => exact fun acc h => ih _ (nodup_keys_assocSet h)

theorem batchFold_mem_keys (rs : List SentimentResult) :
    ∀ (acc : List (String × SentimentResult)) (k2 : String),
      k2 ∈ ((rs.foldl (fun a r => assocSet a r.ticker r) acc).map Prod.fst) ↔
        k2 ∈ acc.map Prod.fst ∨ ∃ r ∈ rs, r.ticker = k2 := by
  induction rs with
  | nil =>
    intro acc k2
    simp
  | cons r rest ih =>
    intro acc k2
    rw [List.foldl_cons, ih, mem_keys_assocSet]
    constructor
    · rintro ((h | h) | h)
      · exact Or.inl h
      · exact Or.inr ⟨r, List.mem_cons_self r rest, h.symm⟩
      · obtain ⟨q, hq, he⟩ := h
        exact Or.inr ⟨q, List.mem_cons_of_mem _ hq, he⟩
    · rintro (h | ⟨q, hq, he⟩)
      · exact Or.inl (Or.inl h)
      · rcases List.mem_cons.mp hq with h1 | h1
        · subst h1
          exact Or.inl (Or.inr he.symm)
        · exact Or.inr ⟨q, h1, he⟩

theorem batchFold_mem (rs : List SentimentResult) :
    ∀ (acc : List (String × SentimentResult)) (p : String × SentimentResult),
      p ∈ rs.foldl (fun a r => assocSet a r.ticker r) acc →
        p ∈ acc ∨ ∃ r ∈ rs, p = (r.ticker, r) := by
  induction rs with
  | nil => exact fun acc p h => Or.inl h
  | cons r rest ih =>
    intro acc p h
    rcases ih _ p h with h1 | ⟨q, hq, he⟩
    · rcases mem_assocSet h1 with h2 | h2
      · exact Or.inl h2
      · exact Or.inr ⟨r, List.mem_cons_self r rest, h2⟩
    · exact Or.inr ⟨q, List.mem_cons_of_mem _ hq, he⟩

theorem batchEntry_ticker (analyze : String → Except String SentimentResult)
    (ht : ∀ t r, analyze t = .ok r → r.ticker = t.toUpper) (t : String) :
    (batchEntry analyze t).ticker = t.toUpper := by
  unfold batchEntry
  cases ha : analyze t with
  | ok r => exact ht t r ha
  | error e => rfl

/-- C5: whenever each successful per-ticker analysis carries the uppercased
symbol (as analyzeTicker does), the batch mapping has no duplicate keys, its
key set is exactly the set of uppercased requested tickers, every entry is
the settled outcome of a requested ticker's own analysis (a failure becomes
the error placeholder without affecting any sibling, and the fold is total,
so the overall call cannot abort), and the placeholder carries score 0 and
label error. -/
theorem C5_batch_isolation (analyze : String → Except String SentimentResult)
    (tickers : List String)
    (ht : ∀ t r, analyze t = .ok r → r.ticker = t.toUpper) :
    ((analyzeBatch analyze tickers).map Prod.fst).Nodup ∧
    (∀ k, k ∈ (analyzeBatch analyze tickers).map Prod.fst ↔ ∃ t ∈ tickers, t.toUpper = k) ∧
    (∀ p ∈ analyzeBatch analyze tickers, ∃ t ∈ tickers, p = (t.toUpper, batchEntry analyze t)) ∧
    (∀ t e, analyze t = .error e → batchEntry analyze t = errorEntry t e) ∧
    (∀ t e, (errorEntry t e).sentiment_score = 0 ∧ (errorEntry t e).sentiment_label = "error" ∧
        (errorEntry t e).error = some e) := by
  refine ⟨batchFold_nodup _ [] (by simp), ?_, ?_, ?_, fun t e => ⟨rfl, rfl, rfl⟩⟩
  · intro k
    unfold analyzeBatch
    rw [batchFold_mem_keys]
    constructor
    · rintro (h | ⟨r, hr, he⟩)
      · simp at h
      · obtain ⟨t, htm, hte⟩ := List.mem_map.mp hr
        refine ⟨t, htm, ?_⟩
        rw [← batchEntry_ticker analyze ht t, hte, he]
    · rintro ⟨t, htm, hte⟩
      refine Or.inr ⟨batchEntry analyze t, List.mem_map_of_mem _ htm, ?_⟩
      rw [batchEntry_ticker analyze ht t, hte]
  · intro p hp
    unfold analyzeBatch at hp
    rcases batchFold_mem _ [] p hp with h | ⟨r, hr, he⟩
    · simp at h
    · obtain ⟨t, htm, hte⟩ := List.mem_map.mp hr
      refine ⟨t, htm, ?_⟩
      rw [he, ← hte, batchEntry_ticker analyze ht t]
  · intro t e ha
    unfold batchEntry
    rw [ha]

/-- Witness for C5 on a concrete batch whose analyses all fail. -/
theorem C5_batch_isolation_witness :
    ((analyzeBatch (fun _ => Except.error "boom") ["AAPL", "aapl"]).map Prod.fst).Nodup :=
  (C5_batch_isolation (fun _ => Except.error "boom") ["AAPL", "aapl"]
    (fun _ _ h => Except.noConfusion h)).1

theorem cacheFind_cons (k : CacheKey) (e : CacheEntry) (c : Cache) (key : CacheKey) :
    cacheFind ((k, e) :: c) key = if k = key then some e else cacheFind c key := rfl

theorem withFromCache_idem (w : SentimentResult) :
    ({ ({ w with fromCache := true } : SentimentResult) with fromCache := true }
      : SentimentResult) = { w with fromCache := true } := rfl

theorem second_call_after_fresh {env1 env2 : AnalyzeEnv} {c : Cache} {ticker : String}
    {opts1 opts2 : AnalyzeOptions} (hb : bucket env1.now = bucket env2.now)
    (hle : env1.now ≤ env2.now) (hskip2 : opts2.skipCache = false)
    {v1 : SentimentResult} {c1 : Cache}
    (h1 : analyzeFresh env1 c ticker opts1 = (.ok v1, c1)) :
    analyzeTicker env2 c1 ticker opts2 = (.ok { v1 with fromCache := true }, c1) := by
  obtain ⟨posts, hs, hr, hc⟩ := analyzeFresh_ok_eq h1
  subst hc
  have hg2 : cacheGet (cacheSet c (cacheKeyOf ticker env1.now) v1 1800 env1.now)
      (cacheKeyOf ticker env2.now) env2.now = some v1 := by
    have hkeq : cacheKeyOf ticker env2.now = cacheKeyOf ticker env1.now := by
      unfold cacheKeyOf
      rw [hb]
    rw [hkeq]
    show cacheGet ((cacheKeyOf ticker env1.now, CacheEntry.mk v1 (env1.now + 1800 * 1000)) :: c)
      (cacheKeyOf ticker env1.now) env2.now = some v1
    unfold cacheGet
    rw [cacheFind_cons, if_pos rfl]
    have hb2 : env1.now / 60000 = env2.now / 60000 := hb
    have hlt : env2.now < env1.now + 1800 * 1000 := by omega
    show (if env2.now < env1.now + 1800 * 1000 then some v1 else none) = some v1
    rw [if_pos hlt]
  exact analyzeTicker_hit hg2 hskip2

/-- C7: a second analyzeTicker call in the same minute bucket, at or after
the first, with skipCache off, on the cache state the first successful call
left behind, returns the first call's value with only the fromCache
annotation set, leaves the cache untouched, and is independent of the second
environment's provider and scorer components (all downstream fetch, score
and aggregate work is skipped). -/
theorem C7_same_bucket_idempotent (env1 env2 : AnalyzeEnv) (c : Cache) (ticker : String)
    (opts1 opts2 : AnalyzeOptions) (hwf : CacheWF c)
    (hb : bucket env1.now = bucket env2.now) (hle : env1.now ≤ env2.now)
    (hskip2 : opts2.skipCache = false) (v1 : SentimentResult) (c1 : Cache)
    (h1 : analyzeTicker env1 c ticker opts1 = (.ok v1, c1)) :
    analyzeTicker env2 c1 ticker opts2 = (.ok { v1 with fromCache := true }, c1) := by
  by_cases hs1 : opts1.skipCache = true
  · rw [analyzeTicker_skip hs1] at h1
    exact second_call_after_fresh hb hle hskip2 h1
  · have hs1f : opts1.skipCache = false := by
      revert hs1
      cases opts1.skipCache <;> simp
    cases hg : cacheGet c (cacheKeyOf ticker env1.now) env1.now with
    | some w =>
      rw [analyzeTicker_hit hg hs1f] at h1
      injection h1 with ha hc
      injection ha with ha
      subst hc
      have hg2 : cacheGet c (cacheKeyOf ticker env2.now) env2.now = some w := by
        have hkeq : cacheKeyOf ticker env2.now = cacheKeyOf ticker env1.now := by
          unfold cacheKeyOf
          rw [hb]
        rw [hkeq]
        exact cacheGet_same_bucket hwf hg hb.symm
      rw [analyzeTicker_hit hg2 hskip2, ← ha, withFromCache_idem]
    | none =>
      rw [analyzeTicker_miss hg] at h1
      exact second_call_after_fresh hb hle hskip2 h1

/-- Witness for C7 on a concrete pair of calls 30 seconds apart in the same
minute bucket. -/
theorem C7_same_bucket_idempotent_witness :
    analyzeTicker envW2 cW "AAPL" {} = (.ok { rW with fromCache := true }, cW) :=
  C7_same_bucket_idempotent envW envW2 [] "AAPL" {} {} cacheWF_nil (by decide) (by decide)
    rfl rW cW (by with_unfolding_all rfl)

/-- C10: a cache hit returns a fresh object carrying the stored entry's
fields plus fromCache true, leaves the cache state unchanged, the stored
entry itself never carries a fromCache marking, and any later hit in the
same bucket observes exactly the same stored field values. -/
theorem C10_cache_hit_frame (env : AnalyzeEnv) (c : Cache) (ticker : String)
    (opts : AnalyzeOptions) (hwf : CacheWF c) (w : SentimentResult)
    (hhit : cacheGet c (cacheKeyOf ticker env.now) env.now = some w)
    (hskip : opts.skipCache = false) :
    analyzeTicker env c ticker opts = (.ok { w with fromCache := true }, c) ∧
    w.fromCache = false ∧
    (∀ (env2 : AnalyzeEnv) (opts2 : AnalyzeOptions), bucket env2.now = bucket env.now →
        opts2.skipCache = false →
        analyzeTicker env2 c ticker opts2 = (.ok { w with fromCache := true }, c)) := by
  refine ⟨analyzeTicker_hit hhit hskip, (entryWF_of_hit hwf hhit).2.1, ?_⟩
  intro env2 opts2 hb2 hs2
  have hg2 : cacheGet c (cacheKeyOf ticker env2.now) env2.now = some w := by
    have hkeq : cacheKeyOf ticker env2.now = cacheKeyOf ticker env.now := by
      unfold cacheKeyOf
      rw [hb2]
    rw [hkeq]
    exact cacheGet_same_bucket hwf hhit hb2
  exact analyzeTicker_hit hg2 hs2

/-- Witness for C10 on a concrete hit 45 seconds into the bucket. -/
theorem C10_cache_hit_frame_witness :
    analyzeTicker envW3 cW "AAPL" {} = (.ok { rW with fromCache := true }, cW) :=
  (C10_cache_hit_frame envW3 cW "AAPL" {}
    (by
      intro p hp
      unfold cW at hp
      rw [List.mem_singleton] at hp
      subst hp
      with_unfolding_all decide) rW
    (by with_unfolding_all rfl) rfl).1

/-- C8: every trending entry is a non-error whose absolute score reaches the
threshold; the sequence is sorted descending by absolute score; an empty
ticker list yields the empty sequence; an all-below-threshold (or all-error)
batch yields the empty sequence rather than an error; and the output depends
only on the batch run with the social-forced options, so social inclusion is
forced on. -/
theorem C8_trending_filter_sort (analyze : AnalyzeOptions → String → Except String SentimentResult)
    (tickers : List String) (threshold : ℚ) :
    (∀ r ∈ getTrendingTickers analyze tickers threshold,
        r.error = none ∧ threshold ≤ |r.sentiment_score|) ∧
    List.Sorted absDesc (getTrendingTickers analyze tickers threshold) ∧
    (tickers = [] → getTrendingTickers analyze tickers threshold = []) ∧
    ((∀ p ∈ analyzeBatch (analyze trendingOptions) tickers,
        p.2.error ≠ none ∨ |p.2.sentiment_score| < threshold) →
      getTrendingTickers analyze tickers threshold = []) ∧
    (∀ analyze2 : AnalyzeOptions → String → Except String SentimentResult,
        analyze2 trendingOptions = analyze trendingOptions →
        getTrendingTickers analyze2 tickers threshold
          = getTrendingTickers analyze tickers threshold) := by
  refine ⟨?_, ?_, ?_, ?_, ?_⟩
  · intro r hr
    simp only [getTrendingTickers] at hr
    have hf := (List.perm_insertionSort absDesc _).mem_iff.mp hr
    have hp := (List.mem_filter.mp hf).2
    rw [Bool.and_eq_true, Option.isNone_iff_eq_none, decide_eq_true_eq] at hp
    exact hp
  · simp only [getTrendingTickers]
    exact List.sorted_insertionSort absDesc _
  · intro h
    subst h
    rfl
  · intro h
    simp only [getTrendingTickers]
    have hf : ((analyzeBatch (analyze trendingOptions) tickers).map Prod.snd).filter
        (fun r => r.error.isNone && decide (threshold ≤ |r.sentiment_score|)) = [] := by
      refine List.filter_eq_nil_iff.mpr ?_
      intro r hr
      obtain ⟨p, hp, he⟩ := List.mem_map.mp hr
      rcases h p hp with h1 | h1
      · rw [Bool.and_eq_true, Option.isNone_iff_eq_none]
        rintro ⟨h2, _⟩
        rw [he] at h1
        exact h1 h2
      · rw [Bool.and_eq_true, decide_eq_true_eq]
        rintro ⟨_, h2⟩
        rw [he] at h1
        linarith
    rw [hf]
    rfl
  · intro analyze2 h
    simp only [getTrendingTickers]
    rw [h]

/-- Witness for C8 on a concrete empty ticker list. -/
theorem C8_trending_filter_sort_witness :
    getTrendingTickers (fun _ _ => Except.error "offline") [] (3/10) = [] :=
  (C8_trending_filter_sort (fun _ _ => Except.error "offline") [] (3/10)).2.2.1 rfl

theorem historyProbe_eq {c : Cache} {now : ℕ} {ticker : String} {i : ℕ}
    (hi : i * 86400000 ≤ now) :
    historyProbe c now ticker i
      = match cacheGet c (ticker, bucket now - 1440 * i) now with
        | some v => some (HistoryPoint.mk (dayIndex now - i) v.sentiment_score v.sentiment_label)
        | none => none := by
  have h1 : (now - i * 86400000) / 60000 = now / 60000 - 1440 * i := by omega
  have h2 : (now - i * 86400000) / 86400000 = now / 86400000 - i := by omega
  unfold historyProbe bucket dayIndex
  rw [h1, h2]

theorem historyProbe_some_iff {c : Cache} {now : ℕ} {ticker : String} {i : ℕ}
    {p : HistoryPoint} (hi : i * 86400000 ≤ now) :
    historyProbe c now ticker i = some p ↔
      ∃ v, cacheGet c (ticker, bucket now - 1440 * i) now = some v ∧
        p = HistoryPoint.mk (dayIndex now - i) v.sentiment_score v.sentiment_label := by
  rw [historyProbe_eq hi]
  cases hv : cacheGet c (ticker, bucket now - 1440 * i) now with
  | some v =>
    constructor
    · intro h
      injection h with h
      exact ⟨v, rfl, h.symm⟩
    · rintro ⟨v2, hv2, hp⟩
      injection hv2 with hv2
      subst hv2
      rw [hp]
  | none =>
    constructor
    · intro h
      exact absurd h (by simp)
    · rintro ⟨v2, hv2, _⟩
      exact absurd hv2 (by simp)

/-- C9, amended: the history data is ordered oldest to newest (strictly
increasing day indices); a point is present exactly when the cache holds a
live entry at the minute bucket exactly i days (1440 buckets) before the
current call's minute bucket, i.e. at the same minute of day - not at the
day's last-known bucket - and a day without such an entry is simply omitted
with no error; the reply carries the uppercased ticker and the period
text. -/
theorem C9_history_same_minute_buckets (c : Cache) (now : ℕ) (ticker : String) (days : ℕ)
    (h : days * 86400000 ≤ now) :
    ((getHistoricalSentiment c now ticker days).data.map HistoryPoint.date).Pairwise (· < ·) ∧
    (∀ p, p ∈ (getHistoricalSentiment c now ticker days).data ↔
        ∃ i, i < days ∧ ∃ v, cacheGet c (ticker, bucket now - 1440 * i) now = some v ∧
          p = HistoryPoint.mk (dayIndex now - i) v.sentiment_score v.sentiment_label) ∧
    (getHistoricalSentiment c now ticker days).ticker = ticker.toUpper ∧
    (getHistoricalSentiment c now ticker days).period = toString days ++ " days" := by
  have hdata : (getHistoricalSentiment c now ticker days).data
      = ((List.range days).filterMap (historyProbe c now ticker)).reverse := rfl
  have hD : days ≤ dayIndex now := by
    unfold dayIndex
    omega
  refine ⟨?_, ?_, rfl, rfl⟩
  · rw [hdata, List.map_reverse, List.pairwise_reverse, List.pairwise_map,
      List.pairwise_filterMap]
    refine List.Pairwise.imp_of_mem ?_ (List.pairwise_lt_range days)
    intro i j hi hj hij x hx y hy
    rw [List.mem_range] at hi hj
    have hxe := (historyProbe_some_iff (by omega)).mp hx
    have hye := (historyProbe_some_iff (by omega)).mp hy
    obtain ⟨vx, _, hxd⟩ := hxe
    obtain ⟨vy, _, hyd⟩ := hye
    rw [hxd, hyd]
    show dayIndex now - j < dayIndex now - i
    omega
  · intro p
    rw [hdata, List.mem_reverse, List.mem_filterMap]
    constructor
    · rintro ⟨i, hi, hp⟩
      rw [List.mem_range] at hi
      exact ⟨i, hi, (historyProbe_some_iff (by omega)).mp hp⟩
    · rintro ⟨i, hi, hv⟩
      exact ⟨i, List.mem_range.mpr hi, (historyProbe_some_iff (by omega)).mpr hv⟩

/-- Witness for C9 on the concrete history fixture. -/
theorem C9_history_same_minute_buckets_witness :
    (getHistoricalSentiment histCacheCE nowCE "AAPL" 2).period = toString 2 ++ " days" :=
  (C9_history_same_minute_buckets histCacheCE nowCE "AAPL" 2 (by norm_num [nowCE])).2.2.2

/-- Counterexample to C9 as stated: with one live entry for AAPL at the last
known minute bucket of the previous calendar day (bucket 143760, 20:00 of
day 99), a two-day history at 12:00 of day 100 returns no points, while the
last-known-bucket reading of the spec would return that day's entry - the
code probes bucket 143280, the same minute of day one day earlier. -/
theorem C9_history_same_minute_buckets_counterexample :
    (getHistoricalSentiment histCacheCE nowCE "AAPL" 2).data = [] ∧
    (historySpec histCacheCE nowCE "AAPL" 2).data
      = [HistoryPoint.mk 99 1 "positive"] := by
  constructor
  · with_unfolding_all rfl
  · with_unfolding_all rfl

theorem analyzeTicker_ok_ticker {env : AnalyzeEnv} {c : Cache} {ticker : String}
    {opts : AnalyzeOptions} (hwf : CacheWF c) {r : SentimentResult} {c2 : Cache}
    (h : analyzeTicker env c ticker opts = (.ok r, c2)) : r.ticker = ticker.toUpper := by
  unfold analyzeTicker at h
  split at h
  · next cached hg =>
    split at h
    · obtain ⟨posts, _, hr, _⟩ := analyzeFresh_ok_eq h
      rw [hr]
      exact freshResult_ticker _ _ _ _
    · injection h with h1 h2
      injection h1 with h1
      rw [← h1]
      exact (entryWF_of_hit hwf hg).2.2
  · obtain ⟨posts, _, hr, _⟩ := analyzeFresh_ok_eq h
    rw [hr]
    exact freshResult_ticker _ _ _ _
